import Mathlib

/-!
Verification development for the `lmwhisper` pipeline-orchestration core.

The Python sources under `src/lmwhisper/` are shallowly embedded below:
pure fragments become Lean functions, stateful objects become explicit
state passing, fallible code returns `Except`/`Option`, and byte buffers
are `List Nat` (one entry per byte).  External collaborators (the
`pyaudio` device, the Whisper inference engine, the HTTP client) are
abstracted as opaque function parameters, so theorems that quantify over
those parameters express behavior that is independent of the external
call (in particular, "the engine is never invoked" is rendered as
"the result is the same for every engine").
-/

namespace LMWhisper

/-! ## Audio capture (`src/lmwhisper/core/audio.py`) -/

/-- Dataclass `AudioConfig`: configuration shared by microphone
implementations (defaults as in the source). -/
structure AudioConfig where
  sampleRate : Nat := 16000
  chunkSize : Nat := 1024
  channels : Nat := 1
  sampleFormat : String := "int16"
  deviceIndex : Option Nat := none
deriving Repr, DecidableEq

/-- Fuel-indexed worker for `FileAudioStream.chunks`.  The Python body is
`for index in range(0, len(self._data), chunk_size): yield
self._data[index : index + chunk_size]`; each loop iteration emits
`take c` of the remaining data and continues on `drop c`.  The fuel is
only a termination device: `fileChunks` below always supplies enough. -/
def fileChunksGo (c : Nat) : Nat → List α → List (List α)
  | 0, _ => []
  | _, [] => []
  | fuel + 1, d => d.take c :: fileChunksGo c fuel (d.drop c)

/-- Embedding of `FileAudioStream.chunks` for a buffer `d` and chunk size
`c`.  Faithful to the source for every `c > 0`; for `c = 0` the Python
`range` raises `ValueError`, a case the spec rules out (`C > 0`). -/
def fileChunks (d : List α) (c : Nat) : List (List α) :=
  fileChunksGo c d.length d

/-- Fake microphone iterating over in-memory PCM data (`FileAudioStream`). -/
structure FileAudioStream where
  data : List Nat
  config : AudioConfig
deriving Repr, DecidableEq

/-- A call to `FileAudioStream.chunks()` as a state-passing operation:
the generator closes over the immutable `self._data` and a loop-local
index, so the call returns the chunk sequence and leaves the stream
object unchanged (which is what makes a second call restart from the
beginning of the buffer). -/
def FileAudioStream.chunksCall (s : FileAudioStream) :
    List (List Nat) × FileAudioStream :=
  (fileChunks s.data s.config.chunkSize, s)

/-- Opening a `FileAudioStream`: "Nothing to do for in-memory audio." -/
def FileAudioStream.openCall (s : FileAudioStream) : FileAudioStream := s

/-- Closing a `FileAudioStream`: `return None` — a no-op on the stream. -/
def FileAudioStream.closeCall (s : FileAudioStream) : FileAudioStream := s

/-- Runtime state of `PyAudioMicrophone`: the lazily created `pyaudio`
handle and input stream, both `None` until `open()` succeeds.  The
handles themselves are opaque (`Unit`); only presence matters to the
close logic. -/
structure PyAudioMicState where
  stream : Option Unit
  pyaudio : Option Unit
deriving Repr, DecidableEq

/-- Constructor state: `PyAudioMicrophone.__init__` sets `self._pyaudio = None`
and `self._stream = None`. -/
def PyAudioMicrophone.init : PyAudioMicState := ⟨none, none⟩

/-- Embedding of `PyAudioMicrophone.close`: stop and close the stream if present and
clear it, then terminate the `pyaudio` handle if present and clear it.
The body contains no `raise`; the external `stop_stream`, `close` and
`terminate` calls are opaque effects, so the model is a total function
on the state. -/
def PyAudioMicrophone.close (s : PyAudioMicState) : PyAudioMicState :=
  let s1 : PyAudioMicState :=
    if s.stream.isSome then { s with stream := none } else s
  if s1.pyaudio.isSome then { s1 with pyaudio := none } else s1

/-! ### Chunking lemmas -/

theorem fileChunksGo_eq_fileChunks (c : Nat) (hc : 0 < c) :
    ∀ fuel (d : List α), d.length ≤ fuel →
      fileChunksGo c fuel d = fileChunks d c := by
  intro fuel
  induction fuel using Nat.strong_induction_on with
  | _ fuel ih =>
    intro d hd
    match fuel, d with
    | 0, d =>
      have hnil : d = [] := List.length_eq_zero.mp (Nat.le_zero.mp hd)
      subst hnil; rfl
    | fuel + 1, [] => rfl
    | fuel + 1, x :: xs =>
      show (x :: xs).take c :: fileChunksGo c fuel ((x :: xs).drop c) = _
      have hlen : ((x :: xs).drop c).length ≤ fuel := by
        simp only [List.length_drop, List.length_cons] at hd ⊢
        omega
      rw [ih fuel (Nat.lt_succ_self _) _ hlen]
      show _ = fileChunksGo c (x :: xs).length (x :: xs)
      have hxs : (x :: xs).length = xs.length + 1 := by simp
      rw [hxs]
      show _ = (x :: xs).take c :: fileChunksGo c xs.length ((x :: xs).drop c)
      have hlen2 : ((x :: xs).drop c).length ≤ xs.length := by
        simp only [List.length_drop, List.length_cons]
        omega
      rw [ih xs.length (by omega) _ hlen2]

theorem fileChunks_nil (c : Nat) : fileChunks ([] : List α) c = [] := rfl

theorem fileChunks_cons (d : List α) (c : Nat) (hc : 0 < c) (hd : d ≠ []) :
    fileChunks d c = d.take c :: fileChunks (d.drop c) c := by
  match d with
  | [] => exact absurd rfl hd
  | x :: xs =>
    show fileChunksGo c (x :: xs).length (x :: xs) = _
    have hxs : (x :: xs).length = xs.length + 1 := by simp
    rw [hxs]
    show (x :: xs).take c :: fileChunksGo c xs.length ((x :: xs).drop c) = _
    congr 1
    apply fileChunksGo_eq_fileChunks c hc
    simp only [List.length_drop, List.length_cons]
    omega

theorem fileChunks_flatten_aux (c : Nat) (hc : 0 < c) :
    ∀ n, ∀ d : List α, d.length ≤ n → (fileChunks d c).flatten = d := by
  intro n
  induction n with
  | zero =>
    intro d hd
    have hnil : d = [] := List.length_eq_zero.mp (Nat.le_zero.mp hd)
    subst hnil
    simp [fileChunks_nil]
  | succ n ih =>
    intro d hd
    match d with
    | [] => simp [fileChunks_nil]
    | x :: xs =>
      rw [fileChunks_cons _ c hc (by simp), List.flatten_cons]
      have hdrop : ((x :: xs).drop c).length ≤ n := by
        simp only [List.length_drop, List.length_cons]
        simp only [List.length_cons] at hd
        omega
      rw [ih _ hdrop]
      exact List.take_append_drop c (x :: xs)

theorem fileChunks_flatten (c : Nat) (hc : 0 < c) (d : List α) :
    (fileChunks d c).flatten = d :=
  fileChunks_flatten_aux c hc d.length d (Nat.le_refl _)

theorem fileChunks_length_aux (c : Nat) (hc : 0 < c) :
    ∀ n, ∀ d : List α, d.length ≤ n →
      (fileChunks d c).length = (d.length + c - 1) / c := by
  intro n
  induction n with
  | zero =>
    intro d hd
    have hnil : d = [] := List.length_eq_zero.mp (Nat.le_zero.mp hd)
    subst hnil
    simp only [fileChunks_nil, List.length_nil, Nat.zero_add]
    rw [Nat.div_eq_of_lt (by omega)]
  | succ n ih =>
    intro d hd
    match d with
    | [] =>
      simp only [fileChunks_nil, List.length_nil, Nat.zero_add]
      rw [Nat.div_eq_of_lt (by omega)]
    | x :: xs =>
      rw [fileChunks_cons _ c hc (by simp)]
      simp only [List.length_cons]
      have hdrop : ((x :: xs).drop c).length ≤ n := by
        simp only [List.length_drop, List.length_cons]
        simp only [List.length_cons] at hd
        omega
      rw [ih _ hdrop]
      simp only [List.length_drop, List.length_cons]
      rcases Nat.lt_or_ge (xs.length + 1) c with hlt | hge
      · have h1 : xs.length + 1 - c = 0 := by omega
        rw [h1, Nat.div_eq_of_lt (by omega)]
        have h2 : (xs.length + 1 + c - 1) / c = 1 := by
          apply Nat.div_eq_of_lt_le <;> omega
        omega
      · have h1 : xs.length + 1 - c + c - 1 = xs.length := by omega
        have h2 : xs.length + 1 + c - 1 = xs.length + c := by omega
        rw [h1, h2, Nat.add_div_right _ hc]

theorem fileChunks_length (c : Nat) (hc : 0 < c) (d : List α) :
    (fileChunks d c).length = (d.length + c - 1) / c :=
  fileChunks_length_aux c hc d.length d (Nat.le_refl _)

theorem fileChunks_dropLast_aux (c : Nat) (hc : 0 < c) :
    ∀ n, ∀ d : List α, d.length ≤ n →
      ∀ ch ∈ (fileChunks d c).dropLast, ch.length = c := by
  intro n
  induction n with
  | zero =>
    intro d hd
    have hnil : d = [] := List.length_eq_zero.mp (Nat.le_zero.mp hd)
    subst hnil
    simp [fileChunks_nil]
  | succ n ih =>
    intro d hd
    match d with
    | [] => simp [fileChunks_nil]
    | x :: xs =>
      rw [fileChunks_cons _ c hc (by simp)]
      have hdrop : ((x :: xs).drop c).length ≤ n := by
        simp only [List.length_drop, List.length_cons]
        simp only [List.length_cons] at hd
        omega
      rcases le_or_lt (xs.length + 1) c with hle | hgt
      · have hnil : (x :: xs).drop c = [] := by
          apply List.length_eq_zero.mp
          simp only [List.length_drop, List.length_cons]
          omega
        rw [hnil, fileChunks_nil]
        simp
      · have hne : (x :: xs).drop c ≠ [] := by
          intro h
          have := congrArg List.length h
          simp only [List.length_drop, List.length_cons, List.length_nil] at this
          omega
        rw [fileChunks_cons _ c hc hne, List.dropLast_cons₂]
        intro ch hch
        rcases List.mem_cons.mp hch with h | h
        · subst h
          simp only [List.length_take, List.length_cons]
          omega
        · rw [← fileChunks_cons _ c hc hne] at h
          exact ih _ hdrop ch h

theorem fileChunks_dropLast_length (c : Nat) (hc : 0 < c) (d : List α) :
    ∀ ch ∈ (fileChunks d c).dropLast, ch.length = c :=
  fileChunks_dropLast_aux c hc d.length d (Nat.le_refl _)

theorem fileChunks_getLast_aux (c : Nat) (hc : 0 < c) :
    ∀ n, ∀ d : List α, d.length ≤ n → d.length % c ≠ 0 →
      ∀ lst, (fileChunks d c).getLast? = some lst →
        lst.length = d.length % c := by
  intro n
  induction n with
  | zero =>
    intro d hd
    have hnil : d = [] := List.length_eq_zero.mp (Nat.le_zero.mp hd)
    subst hnil
    intro hmod
    simp at hmod
  | succ n ih =>
    intro d hd
    match d with
    | [] =>
      intro hmod
      simp at hmod
    | x :: xs =>
      intro hmod lst hlst
      have hdrop : ((x :: xs).drop c).length ≤ n := by
        simp only [List.length_drop, List.length_cons]
        simp only [List.length_cons] at hd
        omega
      rcases le_or_lt (xs.length + 1) c with hle | hgt
      · have hnil : (x :: xs).drop c = [] := by
          apply List.length_eq_zero.mp
          simp only [List.length_drop, List.length_cons]
          omega
        rw [fileChunks_cons _ c hc (by simp), hnil, fileChunks_nil] at hlst
        simp only [List.getLast?_singleton, Option.some.injEq] at hlst
        subst hlst
        simp only [List.length_cons] at hmod ⊢
        simp only [List.length_take, List.length_cons]
        have hltc : xs.length + 1 < c := by
          rcases Nat.lt_or_eq_of_le hle with h | h
          · exact h
          · have h0 : (xs.length + 1) % c = 0 := by rw [h]; exact Nat.mod_self c
            exact absurd h0 hmod
        rw [Nat.mod_eq_of_lt hltc]
        omega
      · have hne : (x :: xs).drop c ≠ [] := by
          intro h
          have := congrArg List.length h
          simp only [List.length_drop, List.length_cons, List.length_nil] at this
          omega
        have hmod2 : ((x :: xs).drop c).length % c = (x :: xs).length % c := by
          simp only [List.length_drop, List.length_cons]
          conv_rhs => rw [show xs.length + 1 = (xs.length + 1 - c) + c by omega]
          rw [Nat.add_mod_right]
        rw [fileChunks_cons _ c hc (by simp)] at hlst
        rw [fileChunks_cons _ c hc hne] at hlst
        rw [List.getLast?_cons_cons] at hlst
        rw [← fileChunks_cons _ c hc hne] at hlst
        have hres := ih _ hdrop
          (by rw [hmod2]; simpa using hmod) lst hlst
        rw [hres, hmod2]

theorem fileChunks_getLast_length (c : Nat) (hc : 0 < c) (d : List α)
    (hmod : d.length % c ≠ 0) :
    ∀ lst, (fileChunks d c).getLast? = some lst → lst.length = d.length % c :=
  fileChunks_getLast_aux c hc d.length d (Nat.le_refl _) hmod

/-! ## Conversation (`src/lmwhisper/core/conversation.py`) -/

/-- Values of the open-ended, string-keyed message metadata mapping.
Claims never inspect the values, only presence/emptiness; the two
shapes the code actually stores are plain data (the transcript detail)
and the provider usage table. -/
inductive MetaVal where
  | str : String → MetaVal
  | table : List (String × String) → MetaVal
deriving DecidableEq, Repr

/-- Open-ended metadata mapping attached to a `Message`. -/
def Metadata := List (String × MetaVal)
deriving DecidableEq, Repr

/-- Dataclass `Message`: role, content, UTC creation timestamp
(abstracted to a `Nat` clock reading), metadata mapping. -/
structure Message where
  role : String
  content : String
  timestamp : Nat
  metadata : Metadata
deriving DecidableEq, Repr

/-- Dataclass `GenerationConfig` (temperature as an exact rational in
place of the Python float; no claim depends on its value). -/
structure GenerationConfig where
  temperature : ℚ := 7 / 10
  maxTokens : Option Nat := none
  systemPrompt : Option String := none

/-- One role/content entry of the serialized chat payload. -/
structure ChatMsg where
  role : String
  content : String
deriving DecidableEq, Repr

/-- Request payload built by `LMStudioClient.generate`. -/
structure LMStudioPayload where
  model : String
  messages : List ChatMsg
  temperature : ℚ
  maxTokens : Option Nat

/-- Serialized message list of the payload built by
`LMStudioClient.generate`: the plain role/content projection of the
history, with `("system", config.system_prompt)` inserted at position 0
whenever `config.system_prompt` is truthy (not `None` and not the empty
string).  The source performs no check against the existing first
element. -/
def lmStudioPayloadMessages (messages : List Message)
    (config : GenerationConfig) : List ChatMsg :=
  let base := messages.map (fun m => ChatMsg.mk m.role m.content)
  match config.systemPrompt with
  | some p => if p = "" then base else ChatMsg.mk "system" p :: base
  | none => base

/-- Full payload built by `LMStudioClient.generate` (model name,
serialized messages, temperature, `max_tokens` only when configured). -/
def lmStudioPayload (model : String) (messages : List Message)
    (config : GenerationConfig) : LMStudioPayload :=
  { model := model
    messages := lmStudioPayloadMessages messages config
    temperature := config.temperature
    maxTokens := config.maxTokens }

/-- Error kind `CompletionFailed`: the completion call did not succeed.
`httpStatus` stands for `raise_for_status` on a non-2xx response,
`transport` for an `httpx` transport-level error. -/
inductive CompletionFailed where
  | transport
  | httpStatus (code : Nat)
deriving DecidableEq, Repr

/-- Decoded fields of a successful `/chat/completions` response that
`LMStudioClient.generate` reads: `choices[0]["message"]` role and
content (each may be absent, the code supplies defaults) and the
optional `usage` table. -/
structure ChatResponse where
  role : Option String
  content : Option String
  usage : Option (List (String × String))

/-- Embedding of `LMStudioClient.generate`: build the payload, perform
the one HTTP post (abstracted as `post`), fail on transport error or
non-2xx, otherwise build the assistant `Message` with
`choice.get("role", "assistant")`, `choice.get("content", "")` and the
usage table recorded into its metadata when present. -/
def LMStudioClient.generate
    (post : LMStudioPayload → Except CompletionFailed ChatResponse)
    (model : String) (messages : List Message) (config : GenerationConfig)
    (now : Nat) : Except CompletionFailed Message :=
  match post (lmStudioPayload model messages config) with
  | .error e => .error e
  | .ok r =>
      .ok { role := r.role.getD "assistant"
            content := r.content.getD ""
            timestamp := now
            metadata :=
              match r.usage with
              | some u => [("usage", MetaVal.table u)]
              | none => [] }

/-- Dataclass `ConversationManager` minus the `llm` client object, which
is passed to `generateReply` as a function parameter. -/
structure ConversationManager where
  config : GenerationConfig
  messages : List Message

/-- Embedding of `ConversationManager.add_user_message`: construct a
`user`-role message (metadata defaults to the empty mapping in the
source) and append it to the owned list; return it. -/
def ConversationManager.addUserMessage (m : ConversationManager)
    (content : String) (metadata : Metadata) (now : Nat) :
    Message × ConversationManager :=
  let msg : Message := ⟨"user", content, now, metadata⟩
  (msg, { m with messages := m.messages ++ [msg] })

/-- Embedding of `ConversationManager.add_system_message`. -/
def ConversationManager.addSystemMessage (m : ConversationManager)
    (content : String) (now : Nat) : Message × ConversationManager :=
  let msg : Message := ⟨"system", content, now, []⟩
  (msg, { m with messages := m.messages ++ [msg] })

/-- Embedding of `ConversationManager.generate_reply`: invoke the client
on the full current history and the conversation config; on success
append the returned assistant message and return it; on failure the
exception propagates before the append runs, so the error case carries
the manager unchanged. -/
def ConversationManager.generateReply
    (llm : List Message → GenerationConfig → Except CompletionFailed Message)
    (m : ConversationManager) :
    Except (CompletionFailed × ConversationManager)
      (Message × ConversationManager) :=
  match llm m.messages m.config with
  | .error e => .error (e, m)
  | .ok a => .ok (a, { m with messages := m.messages ++ [a] })

/-- Embedding of `ConversationManager.history`: `tuple(self.messages)`,
the ordered content of the owned message list. -/
def ConversationManager.history (m : ConversationManager) : List Message :=
  m.messages

/-- World after a `history()` call, modelling the aliasing structure:
`tuple(self.messages)` copies the elements into a fresh immutable
tuple, so afterwards the caller holds a sequence (`snapshot`) distinct
from the manager's live list (`live`). -/
structure HistorySnapshotWorld where
  live : List Message
  snapshot : List Message
deriving DecidableEq, Repr

/-- A `history()` call: the snapshot starts out equal in content to the
live list but is a separate sequence. -/
def ConversationManager.historyCall (m : ConversationManager) :
    HistorySnapshotWorld :=
  ⟨m.messages, m.messages⟩

/-- A mutation aimed at the snapshot sequence: because the snapshot is
a separate copy, it rewrites only the `snapshot` component. -/
def HistorySnapshotWorld.mutateSnapshot (w : HistorySnapshotWorld)
    (f : List Message → List Message) : HistorySnapshotWorld :=
  ⟨w.live, f w.snapshot⟩

/-! ## Persistence (`src/lmwhisper/core/persistence.py`) -/

/-- Dataclass `ConversationTurn`: one user message and the assistant
message it produced. -/
structure ConversationTurn where
  user : Message
  assistant : Message
deriving DecidableEq, Repr

/-- Serialized form of one message record in the TOML document, as
produced by `_message_to_dict`. -/
structure MessageDict where
  role : String
  content : String
  timestamp : Nat
  metadata : Option Metadata
deriving DecidableEq, Repr

/-- Embedding of `_message_to_dict`: role, content, timestamp always;
the metadata key only when the mapping is non-empty. -/
def messageToDict (m : Message) : MessageDict :=
  { role := m.role
    content := m.content
    timestamp := m.timestamp
    metadata := if m.metadata = ([] : Metadata) then none else some m.metadata }

/-- Complete TOML document built by `TomlLogger.write`: the
`[conversation]` table and the ordered `messages` list. -/
structure ConversationDoc where
  id : String
  createdAt : Nat
  metadata : List (String × MetaVal)
  messages : List MessageDict
deriving DecidableEq, Repr

/-- Embedding of `TomlLogger.write` (document construction; the
directory/file side of the call is an external effect): the messages
list receives every system message in order, then for each turn the
user message followed by the assistant message. -/
def TomlLogger.write (conversationId : String) (system : List Message)
    (turns : List ConversationTurn) (metadata : List (String × MetaVal))
    (now : Nat) : ConversationDoc :=
  { id := conversationId
    createdAt := now
    metadata := metadata
    messages :=
      system.map messageToDict ++
        (turns.map (fun t => [messageToDict t.user, messageToDict t.assistant])).flatten }

/-! ## Transcription (`src/lmwhisper/core/transcription.py`) -/

/-- Dataclass `TranscriptSegment` (the source field `end` is named
`endTime` here because `end` is a Lean keyword); numeric fields are
exact rationals in place of Python floats. -/
structure TranscriptSegment where
  text : String
  start : Option ℚ := none
  endTime : Option ℚ := none
  confidence : Option ℚ := none
deriving DecidableEq

/-- Dataclass `TranscriptResult`. -/
structure TranscriptResult where
  text : String
  segments : List TranscriptSegment
  language : Option String := none
deriving DecidableEq

/-- Byte values of the ASCII tag `RIFF`. -/
def riffMagic : List Nat := [82, 73, 70, 70]

/-- Byte values of the ASCII tag `WAVE`. -/
def waveMagic : List Nat := [87, 65, 86, 69]

/-- Byte values of the ASCII tag `fmt ` (with trailing space). -/
def fmtMagic : List Nat := [102, 109, 116, 32]

/-- Byte values of the ASCII tag `data`. -/
def dataMagic : List Nat := [100, 97, 116, 97]

/-- Little-endian value of a byte list (first byte least significant). -/
def leNat (bs : List Nat) : Nat :=
  bs.foldr (fun b acc => b + 256 * acc) 0

/-- Container parameters and frame bytes recovered from a WAV buffer:
what `LocalWhisperClient.transcribe` reads off the opened `wave` file
(`getsampwidth`, `getframerate`, `readframes(getnframes)`). -/
structure WavInfo where
  nchannels : Nat
  sampwidth : Nat
  framerate : Nat
  nframes : Nat
  frames : List Nat
deriving DecidableEq, Repr

/-- Modelled from the Python stdlib `wave` module (an external
collaborator of `LocalWhisperClient.transcribe`), for canonical
RIFF/WAVE buffers: walk the chunk list (4-byte tag, 4-byte
little-endian size, body, even-byte padding); a `fmt ` chunk must
declare PCM (format tag 1), at least one channel and a sample width of
1–4 bytes (`(bits + 7) / 8`); the first `data` chunk after a `fmt `
chunk ends the walk with `nframes = size / (nchannels * sampwidth)`
full frames of sample data.  Any malformed layout is `none` (the
`wave` module raises `wave.Error`). -/
def wavParseChunks (fmtInfo : Option (Nat × Nat × Nat)) :
    Nat → List Nat → Option WavInfo
  | 0, _ => none
  | _, [] => none
  | fuel + 1, bs =>
    if bs.length < 8 then none
    else
      let tag := bs.take 4
      let size := leNat ((bs.drop 4).take 4)
      let body := (bs.drop 8).take size
      let rest := bs.drop (8 + size + size % 2)
      if tag = fmtMagic then
        if body.length < 16 then none
        else
          let formatTag := leNat (body.take 2)
          let nchannels := leNat ((body.drop 2).take 2)
          let framerate := leNat ((body.drop 4).take 4)
          let bits := leNat ((body.drop 14).take 2)
          let sampwidth := (bits + 7) / 8
          if formatTag ≠ 1 ∨ nchannels < 1 ∨ sampwidth < 1 ∨ 4 < sampwidth then
            none
          else wavParseChunks (some (nchannels, sampwidth, framerate)) fuel rest
      else if tag = dataMagic then
        match fmtInfo with
        | none => none
        | some (nchannels, sampwidth, framerate) =>
          let framesize := nchannels * sampwidth
          let nframes := size / framesize
          some ⟨nchannels, sampwidth, framerate, nframes,
            body.take (nframes * framesize)⟩
      else wavParseChunks fmtInfo fuel rest

/-- Top-level WAV container parse: requires the `RIFF` tag, a size
field, and the `WAVE` form tag, then walks the chunks. -/
def wavParse (bs : List Nat) : Option WavInfo :=
  if bs.take 4 = riffMagic ∧ (bs.drop 8).take 4 = waveMagic ∧ 12 ≤ bs.length then
    wavParseChunks none bs.length (bs.drop 12)
  else none

/-- Signed 16-bit value of a little-endian byte pair, as `numpy`
decodes `dtype=np.int16`. -/
def int16OfBytes (lo hi : Nat) : Int :=
  let v := lo + 256 * hi
  if v < 32768 then (v : Int) else (v : Int) - 65536

/-- Modelled behavior of `np.frombuffer(bs, dtype=np.int16)`: decode
consecutive little-endian byte pairs; a buffer of odd length raises
`ValueError` (here `none`). -/
def bytesToInt16 : List Nat → Option (List Int)
  | [] => some []
  | [_] => none
  | lo :: hi :: rest => (bytesToInt16 rest).map (fun tl => int16OfBytes lo hi :: tl)

/-- Error kinds surfaced by `transcribe` (all raised as `RuntimeError`
or library errors in the source; the spec's taxonomy names the first
`UnsupportedSampleWidth`). -/
inductive TranscribeError where
  | unsupportedSampleWidth (bits : Nat)
  | wavError
  | bufferError
deriving DecidableEq, Repr

/-- Embedding of `LocalWhisperClient.transcribe`.  `process` abstracts
the post-extraction pipeline of the source (normalize the int16
samples to floats by `/ 32768.0`, resample when the recovered rate
differs from the model rate, invoke the Whisper engine, map its
segments); it receives the extracted samples, the sample rate recovered
from the container (or the model rate for raw PCM input) and the
language hint.  Theorems that hold for every `process` therefore hold
independently of any engine invocation. -/
def LocalWhisperClient.transcribe
    (process : List Int → Nat → Option String → TranscriptResult)
    (modelRate : Nat) (audioStream : List (List Nat))
    (language : Option String) : Except TranscribeError TranscriptResult :=
  let audioBytes := audioStream.flatten
  if audioBytes = [] then .ok ⟨"", [], none⟩
  else if audioBytes.take 4 = riffMagic then
    match wavParse audioBytes with
    | none => .error .wavError
    | some w =>
      if w.sampwidth ≠ 2 then .error (.unsupportedSampleWidth (w.sampwidth * 8))
      else
        match bytesToInt16 w.frames with
        | none => .error .bufferError
        | some samples =>
          if samples = [] then .ok ⟨"", [], none⟩
          else .ok (process samples w.framerate language)
  else
    match bytesToInt16 audioBytes with
    | none => .error .bufferError
    | some samples =>
      if samples = [] then .ok ⟨"", [], none⟩
      else .ok (process samples modelRate language)

/-- Modelled from the spec: the remote transcription backend
`OpenAIWhisperClient` is imported by `src/lmwhisper/ui/cli.py` but its
definition is missing from `src/`.  Spec section 4.2 states one
behavior contract for both variants: concatenate the chunks, return an
empty `TranscriptResult` immediately on an empty buffer without
invoking the engine, recover parameters from a WAV container and fail
with `UnsupportedSampleWidth` for any declared width other than 16
bits, treat headerless input as raw 16-bit PCM at the expected rate,
and only then hand the audio to the remote engine (`remote`, covering
WAV synthesis, transmission and response mapping). -/
def OpenAIWhisperClient.transcribe
    (remote : List Int → Nat → Option String → TranscriptResult)
    (expectedRate : Nat) (audioStream : List (List Nat))
    (language : Option String) : Except TranscribeError TranscriptResult :=
  let audioBytes := audioStream.flatten
  if audioBytes = [] then .ok ⟨"", [], none⟩
  else if audioBytes.take 4 = riffMagic then
    match wavParse audioBytes with
    | none => .error .wavError
    | some w =>
      if w.sampwidth ≠ 2 then .error (.unsupportedSampleWidth (w.sampwidth * 8))
      else
        match bytesToInt16 w.frames with
        | none => .error .bufferError
        | some samples =>
          if samples = [] then .ok ⟨"", [], none⟩
          else .ok (remote samples w.framerate language)
  else
    match bytesToInt16 audioBytes with
    | none => .error .bufferError
    | some samples =>
      if samples = [] then .ok ⟨"", [], none⟩
      else .ok (remote samples expectedRate language)

/-! ## Helper lemmas for the claims -/

theorem wavParse_riff (bs : List Nat) (w : WavInfo) (h : wavParse bs = some w) :
    bs.take 4 = riffMagic := by
  unfold wavParse at h
  by_cases hc : bs.take 4 = riffMagic ∧ (bs.drop 8).take 4 = waveMagic ∧ 12 ≤ bs.length
  · exact hc.1
  · rw [if_neg hc] at h
    exact absurd h (by simp)

theorem wavParse_ne_nil (bs : List Nat) (w : WavInfo) (h : wavParse bs = some w) :
    bs ≠ [] := by
  intro hnil
  subst hnil
  simp [wavParse, riffMagic, waveMagic] at h

theorem pyaudio_close_eq (s : PyAudioMicState) :
    PyAudioMicrophone.close s = ⟨none, none⟩ := by
  rcases s with ⟨(_ | u), (_ | v)⟩ <;> rfl

theorem turnPairs_length (turns : List ConversationTurn) :
    ((turns.map (fun t => [messageToDict t.user, messageToDict t.assistant])).flatten).length =
      2 * turns.length := by
  induction turns with
  | nil => rfl
  | cons t ts ih =>
    simp only [List.map_cons, List.flatten_cons, List.length_append, List.length_cons,
      List.length_nil, ih]
    omega

/-! ## Claims -/

/-- C1: for every audio input whose chunks concatenate to an empty byte
buffer, `transcribe` returns a `TranscriptResult` with empty text and an
empty segment sequence, for both backend variants, and never invokes the
underlying engine (the result is independent of `process`/`remote`). -/
theorem claim_C1_empty_audio
    (process remote : List Int → Nat → Option String → TranscriptResult)
    (modelRate expectedRate : Nat) (chunks : List (List Nat))
    (language : Option String) (h : chunks.flatten = []) :
    LocalWhisperClient.transcribe process modelRate chunks language =
      .ok { text := "", segments := [], language := none } ∧
    OpenAIWhisperClient.transcribe remote expectedRate chunks language =
      .ok { text := "", segments := [], language := none } := by
  constructor <;>
    simp [LocalWhisperClient.transcribe, OpenAIWhisperClient.transcribe, h]

theorem claim_C1_empty_audio_witness :
    LocalWhisperClient.transcribe (fun _ _ _ => TranscriptResult.mk "x" [] none)
        16000 [[], []] none =
      .ok { text := "", segments := [], language := none } ∧
    OpenAIWhisperClient.transcribe (fun _ _ _ => TranscriptResult.mk "y" [] none)
        16000 [[], []] none =
      .ok { text := "", segments := [], language := none } :=
  claim_C1_empty_audio (fun _ _ _ => TranscriptResult.mk "x" [] none)
    (fun _ _ _ => TranscriptResult.mk "y" [] none) 16000 16000 [[], []] none rfl

/-- C2: after `add_user_message(text)` and a successful
`generate_reply()`, the history is the old history plus the user
message then the assistant message (exactly two more messages), and the
assistant message is exactly the value `generate_reply` returns. -/
theorem claim_C2_add_user_then_reply
    (llm : List Message → GenerationConfig → Except CompletionFailed Message)
    (m : ConversationManager) (content : String) (md : Metadata) (now : Nat)
    (a : Message)
    (h : llm (m.messages ++ [Message.mk "user" content now md]) m.config =
      .ok a) :
    ConversationManager.generateReply llm (m.addUserMessage content md now).2 =
      .ok (a, ConversationManager.mk m.config
        (m.messages ++ [Message.mk "user" content now md, a])) ∧
    (ConversationManager.mk m.config
        (m.messages ++ [Message.mk "user" content now md, a])).history =
      m.history ++ [(m.addUserMessage content md now).1, a] ∧
    (ConversationManager.mk m.config
        (m.messages ++ [Message.mk "user" content now md, a])).history.length =
      m.history.length + 2 := by
  refine ⟨?_, ?_, ?_⟩
  · simp [ConversationManager.generateReply, ConversationManager.addUserMessage, h]
  · simp [ConversationManager.history, ConversationManager.addUserMessage]
  · simp [ConversationManager.history]

theorem claim_C2_add_user_then_reply_witness :
    ConversationManager.generateReply
        (fun _ _ => Except.ok (Message.mk "assistant" "hello" 1 []))
        ((ConversationManager.mk {} []).addUserMessage "hi" [] 0).2 =
      .ok (Message.mk "assistant" "hello" 1 [],
        ConversationManager.mk {}
          [Message.mk "user" "hi" 0 [], Message.mk "assistant" "hello" 1 []]) ∧
    (ConversationManager.mk {}
        [Message.mk "user" "hi" 0 [], Message.mk "assistant" "hello" 1 []]).history =
      (ConversationManager.mk {} []).history ++
        [((ConversationManager.mk {} []).addUserMessage "hi" [] 0).1,
         Message.mk "assistant" "hello" 1 []] ∧
    (ConversationManager.mk {}
        [Message.mk "user" "hi" 0 [], Message.mk "assistant" "hello" 1 []]).history.length =
      (ConversationManager.mk {} []).history.length + 2 :=
  claim_C2_add_user_then_reply
    (fun _ _ => Except.ok (Message.mk "assistant" "hello" 1 []))
    (ConversationManager.mk {} []) "hi" [] 0
    (Message.mk "assistant" "hello" 1 []) rfl

/-- C3: when the completion backend fails, `generate_reply` surfaces
`CompletionFailed` and the history is unchanged by the failed call: it
still ends with the user message that triggered the call and no
assistant message was appended. -/
theorem claim_C3_completion_failure
    (llm : List Message → GenerationConfig → Except CompletionFailed Message)
    (m : ConversationManager) (content : String) (md : Metadata) (now : Nat)
    (e : CompletionFailed)
    (h : llm (m.messages ++ [Message.mk "user" content now md]) m.config =
      .error e) :
    ConversationManager.generateReply llm (m.addUserMessage content md now).2 =
      .error (e, (m.addUserMessage content md now).2) ∧
    ((m.addUserMessage content md now).2).history =
      m.history ++ [Message.mk "user" content now md] := by
  constructor
  · simp [ConversationManager.generateReply, ConversationManager.addUserMessage, h]
  · simp [ConversationManager.history, ConversationManager.addUserMessage]

theorem claim_C3_completion_failure_witness :
    ConversationManager.generateReply
        (fun _ _ => Except.error CompletionFailed.transport)
        ((ConversationManager.mk {} []).addUserMessage "hi" [] 0).2 =
      .error (CompletionFailed.transport,
        ((ConversationManager.mk {} []).addUserMessage "hi" [] 0).2) ∧
    (((ConversationManager.mk {} []).addUserMessage "hi" [] 0).2).history =
      (ConversationManager.mk {} []).history ++ [Message.mk "user" "hi" 0 []] :=
  claim_C3_completion_failure
    (fun _ _ => Except.error CompletionFailed.transport)
    (ConversationManager.mk {} []) "hi" [] 0 CompletionFailed.transport rfl

/-- Formalization of the C4 claim sentence itself, for comparison with
the source-derived `lmStudioPayloadMessages`: prepend the system-prompt
entry only when one is configured and the first element of the
serialized history is not already that same entry. -/
def lmStudioPayloadMessagesClaimed (messages : List Message)
    (config : GenerationConfig) : List ChatMsg :=
  let base := messages.map (fun m => ChatMsg.mk m.role m.content)
  match config.systemPrompt with
  | some p =>
      if p = "" then base
      else if base.head? = some (ChatMsg.mk "system" p) then base
      else ChatMsg.mk "system" p :: base
  | none => base

/-- C4 counterexample: with a history already beginning with the
configured system prompt, the code still prepends a second system
message, so the built payload differs from the claimed behavior at this
concrete input. -/
theorem claim_C4_counterexample :
    lmStudioPayloadMessages [Message.mk "system" "be brief" 0 []]
        (GenerationConfig.mk (7 / 10) none (some "be brief")) =
      [ChatMsg.mk "system" "be brief", ChatMsg.mk "system" "be brief"] ∧
    lmStudioPayloadMessagesClaimed [Message.mk "system" "be brief" 0 []]
        (GenerationConfig.mk (7 / 10) none (some "be brief")) =
      [ChatMsg.mk "system" "be brief"] ∧
    lmStudioPayloadMessages [Message.mk "system" "be brief" 0 []]
        (GenerationConfig.mk (7 / 10) none (some "be brief")) ≠
      lmStudioPayloadMessagesClaimed [Message.mk "system" "be brief" 0 []]
        (GenerationConfig.mk (7 / 10) none (some "be brief")) :=
  ⟨rfl, rfl, by decide⟩

/-- C4 (amended): `generate` serializes the history to a plain
role/content list and prepends the system-prompt message exactly when a
system prompt is configured (not `None`, not empty), with no check of
the existing first element — so a history already beginning with the
configured system prompt receives a second system message. -/
theorem claim_C4_system_prompt_prepend (messages : List Message)
    (config : GenerationConfig) :
    (∀ p, config.systemPrompt = some p → p ≠ "" →
      lmStudioPayloadMessages messages config =
        ChatMsg.mk "system" p ::
          messages.map (fun msg => ChatMsg.mk msg.role msg.content)) ∧
    (config.systemPrompt = none ∨ config.systemPrompt = some "" →
      lmStudioPayloadMessages messages config =
        messages.map (fun msg => ChatMsg.mk msg.role msg.content)) := by
  constructor
  · intro p hp hne
    simp [lmStudioPayloadMessages, hp, hne]
  · rintro (hp | hp) <;> simp [lmStudioPayloadMessages, hp]

theorem claim_C4_system_prompt_prepend_witness :
    lmStudioPayloadMessages [Message.mk "system" "be brief" 0 []]
        (GenerationConfig.mk (7 / 10) none (some "be brief")) =
      ChatMsg.mk "system" "be brief" ::
        [Message.mk "system" "be brief" 0 []].map
          (fun msg => ChatMsg.mk msg.role msg.content) :=
  (claim_C4_system_prompt_prepend [Message.mk "system" "be brief" 0 []]
    (GenerationConfig.mk (7 / 10) none (some "be brief"))).1
    "be brief" rfl (by decide)

/-- C5: for every audio buffer that parses as a WAV container, a
declared sample width other than 16 bits makes `transcribe` fail with
`UnsupportedSampleWidth` before any engine invocation (the error is
independent of `process`/`remote`), for both backend variants; a 16-bit
container is accepted and the extracted frames are handed on. -/
theorem claim_C5_wav_sample_width (chunks : List (List Nat)) (w : WavInfo)
    (hw : wavParse chunks.flatten = some w) :
    (w.sampwidth ≠ 2 →
      ∀ (process remote : List Int → Nat → Option String → TranscriptResult)
        (modelRate expectedRate : Nat) (language : Option String),
        LocalWhisperClient.transcribe process modelRate chunks language =
          .error (.unsupportedSampleWidth (w.sampwidth * 8)) ∧
        OpenAIWhisperClient.transcribe remote expectedRate chunks language =
          .error (.unsupportedSampleWidth (w.sampwidth * 8))) ∧
    (w.sampwidth = 2 →
      ∀ (process remote : List Int → Nat → Option String → TranscriptResult)
        (modelRate expectedRate : Nat) (language : Option String)
        (samples : List Int), bytesToInt16 w.frames = some samples →
        LocalWhisperClient.transcribe process modelRate chunks language =
          (if samples = [] then .ok { text := "", segments := [], language := none }
           else .ok (process samples w.framerate language)) ∧
        OpenAIWhisperClient.transcribe remote expectedRate chunks language =
          (if samples = [] then .ok { text := "", segments := [], language := none }
           else .ok (remote samples w.framerate language))) := by
  have hriff := wavParse_riff _ _ hw
  have hne := wavParse_ne_nil _ _ hw
  constructor
  · intro hsw process remote modelRate expectedRate language
    constructor <;>
      simp [LocalWhisperClient.transcribe, OpenAIWhisperClient.transcribe,
        hne, hriff, hw, hsw]
  · intro hsw process remote modelRate expectedRate language samples hs
    constructor <;>
      simp [LocalWhisperClient.transcribe, OpenAIWhisperClient.transcribe,
        hne, hriff, hw, hsw, hs]

/-- Canonical 8-bit-per-sample mono PCM WAV buffer (16 kHz, two
frames), used as concrete witness input. -/
def wav8Buffer : List Nat :=
  [82, 73, 70, 70, 36, 0, 0, 0, 87, 65, 86, 69,
   102, 109, 116, 32, 16, 0, 0, 0, 1, 0, 1, 0, 128, 62, 0, 0,
   128, 62, 0, 0, 1, 0, 8, 0,
   100, 97, 116, 97, 2, 0, 0, 0, 10, 20]

/-- Canonical 16-bit-per-sample mono PCM WAV buffer (16 kHz, two
frames), used as concrete witness input. -/
def wav16Buffer : List Nat :=
  [82, 73, 70, 70, 40, 0, 0, 0, 87, 65, 86, 69,
   102, 109, 116, 32, 16, 0, 0, 0, 1, 0, 1, 0, 128, 62, 0, 0,
   0, 125, 0, 0, 2, 0, 16, 0,
   100, 97, 116, 97, 4, 0, 0, 0, 1, 0, 2, 0]

theorem claim_C5_wav_sample_width_witness :
    LocalWhisperClient.transcribe (fun _ _ _ => TranscriptResult.mk "x" [] none)
        16000 [wav8Buffer] none = .error (.unsupportedSampleWidth 8) ∧
    OpenAIWhisperClient.transcribe (fun _ _ _ => TranscriptResult.mk "y" [] none)
        16000 [wav8Buffer] none = .error (.unsupportedSampleWidth 8) ∧
    LocalWhisperClient.transcribe (fun _ _ _ => TranscriptResult.mk "ok" [] none)
        16000 [wav16Buffer] none = .ok (TranscriptResult.mk "ok" [] none) := by
  have t8 := claim_C5_wav_sample_width [wav8Buffer]
    (WavInfo.mk 1 1 16000 2 [10, 20]) (by decide)
  have t16 := claim_C5_wav_sample_width [wav16Buffer]
    (WavInfo.mk 1 2 16000 2 [1, 0, 2, 0]) (by decide)
  have h8 := t8.1 (by decide) (fun _ _ _ => TranscriptResult.mk "x" [] none)
    (fun _ _ _ => TranscriptResult.mk "y" [] none) 16000 16000 none
  have h16 := (t16.2 rfl (fun _ _ _ => TranscriptResult.mk "ok" [] none)
    (fun _ _ _ => TranscriptResult.mk "ok" [] none) 16000 16000 none
    [1, 2] (by decide)).1
  refine ⟨h8.1, h8.2, ?_⟩
  simpa using h16

/-- C6: for a static-buffer audio source with chunk size `C > 0`,
`chunks()` yields exactly `ceil(N / C)` chunks, each of size `C` except
possibly the last, whose size is `N mod C` when that is nonzero; and a
second `chunks()` call on the stream returned by the first yields the
identical sequence (restartability). -/
theorem claim_C6_static_chunking (s : FileAudioStream)
    (hc : 0 < s.config.chunkSize) :
    s.chunksCall.1.length =
      (s.data.length + s.config.chunkSize - 1) / s.config.chunkSize ∧
    (∀ ch ∈ s.chunksCall.1.dropLast, ch.length = s.config.chunkSize) ∧
    (s.data.length % s.config.chunkSize ≠ 0 →
      ∀ lst, s.chunksCall.1.getLast? = some lst →
        lst.length = s.data.length % s.config.chunkSize) ∧
    s.chunksCall.2.chunksCall.1 = s.chunksCall.1 :=
  ⟨fileChunks_length _ hc _, fileChunks_dropLast_length _ hc _,
   fun hmod => fileChunks_getLast_length _ hc _ hmod, rfl⟩

theorem claim_C6_static_chunking_witness :
    (FileAudioStream.mk [1, 2, 3, 4, 5] { chunkSize := 2 }).chunksCall.1.length =
      (5 + 2 - 1) / 2 ∧
    (∀ ch ∈ (FileAudioStream.mk [1, 2, 3, 4, 5]
        { chunkSize := 2 }).chunksCall.1.dropLast, ch.length = 2) ∧
    ((5 : Nat) % 2 ≠ 0 →
      ∀ lst, (FileAudioStream.mk [1, 2, 3, 4, 5]
          { chunkSize := 2 }).chunksCall.1.getLast? = some lst →
        lst.length = 5 % 2) ∧
    (FileAudioStream.mk [1, 2, 3, 4, 5]
        { chunkSize := 2 }).chunksCall.2.chunksCall.1 =
      (FileAudioStream.mk [1, 2, 3, 4, 5] { chunkSize := 2 }).chunksCall.1 :=
  claim_C6_static_chunking
    (FileAudioStream.mk [1, 2, 3, 4, 5] { chunkSize := 2 }) (by decide)

/-- C7: the persisted document's message list is the system messages in
order followed by each turn's user-then-assistant pair in turn order;
with one system message and two turns that is exactly five entries in
the stated order. -/
theorem claim_C7_document_layout (cid : String)
    (meta : List (String × MetaVal)) (now : Nat)
    (s u1 a1 u2 a2 : Message) :
    (TomlLogger.write cid [s] [ConversationTurn.mk u1 a1,
        ConversationTurn.mk u2 a2] meta now).messages =
      [messageToDict s, messageToDict u1, messageToDict a1,
       messageToDict u2, messageToDict a2] ∧
    (∀ system turns,
      (TomlLogger.write cid system turns meta now).messages =
        system.map messageToDict ++
          (turns.map (fun t => [messageToDict t.user,
            messageToDict t.assistant])).flatten) ∧
    (∀ system turns,
      (TomlLogger.write cid system turns meta now).messages.length =
        system.length + 2 * turns.length) := by
  refine ⟨rfl, fun system turns => rfl, fun system turns => ?_⟩
  simp only [TomlLogger.write, List.length_append, List.length_map,
    turnPairs_length]

/-- C8: `close()` on a source never opened, or called twice in a row,
does not raise (both close operations are total functions with no error
path) and leaves the source closed; holds for both `AudioSource`
variants. -/
theorem claim_C8_close_idempotent :
    PyAudioMicrophone.close PyAudioMicrophone.init = PyAudioMicrophone.init ∧
    (∀ s, PyAudioMicrophone.close (PyAudioMicrophone.close s) =
      PyAudioMicrophone.close s) ∧
    (∀ s, (PyAudioMicrophone.close s).stream = none ∧
      (PyAudioMicrophone.close s).pyaudio = none) ∧
    (∀ t : FileAudioStream, t.closeCall = t ∧ t.closeCall.closeCall = t.closeCall) := by
  refine ⟨rfl, fun s => ?_, fun s => ?_, fun t => ⟨rfl, rfl⟩⟩
  · rw [pyaudio_close_eq, pyaudio_close_eq]
  · rw [pyaudio_close_eq]
    exact ⟨rfl, rfl⟩

/-- C9: `history()` returns the ordered content of the live message
list as a fresh immutable snapshot; a mutation aimed at the snapshot
leaves the live sequence, and hence any later `history()` result,
unchanged. -/
theorem claim_C9_history_snapshot (m : ConversationManager)
    (f : List Message → List Message) :
    m.historyCall.snapshot = m.history ∧
    m.historyCall.live = m.messages ∧
    (m.historyCall.mutateSnapshot f).live = m.messages ∧
    (ConversationManager.mk m.config
        (m.historyCall.mutateSnapshot f).live).history = m.history :=
  ⟨rfl, rfl, rfl, rfl⟩

/-- C10: concatenating, in order, all chunks yielded by a static-buffer
source with chunk size `C > 0` reconstructs the source buffer exactly. -/
theorem claim_C10_chunks_concat (s : FileAudioStream)
    (hc : 0 < s.config.chunkSize) :
    s.chunksCall.1.flatten = s.data :=
  fileChunks_flatten _ hc _

theorem claim_C10_chunks_concat_witness :
    (FileAudioStream.mk [7, 8, 9, 10, 11] { chunkSize := 3 }).chunksCall.1.flatten =
      [7, 8, 9, 10, 11] :=
  claim_C10_chunks_concat
    (FileAudioStream.mk [7, 8, 9, 10, 11] { chunkSize := 3 }) (by decide)
